import Mathlib

/-!
Verification of the heripo-research-radar core: the time-bounded HTML fetch
cache with identity rotation (`fetchHtml` in the debug server), the yngogo
CSR-workaround parser (`parseYngogoList`, `getUniqId`, `extractNttSeq`), and
the route-level target lookup.  Pure functions are shallowly embedded as Lean
functions; the network and the clock are passed in explicitly; DOM fragments
are embedded at the level of selected rows/cells.
-/

namespace Radar

/-- Single-quote character, written by code point to keep string literals clean. -/
def sq : Char := Char.ofNat 39

/-- Double-quote character. -/
def dq : Char := Char.ofNat 34

/-- Does the second list start with the first one?  (Hand-rolled prefix test
over `List Char`, used by the regex models.) -/
def leadsWith : List Char → List Char → Bool
  | [], _ => true
  | _ :: _, [] => false
  | p :: ps, c :: cs => p == c && leadsWith ps cs

/-- Does `s` contain `pat` as a contiguous substring? -/
def containsSeq (pat : List Char) : List Char → Bool
  | [] => pat.isEmpty
  | c :: rest => leadsWith pat (c :: rest) || containsSeq pat rest

/-- Split a character list on every occurrence of `sep`; always returns a
non-empty list of separator-free segments (like `String.splitOn` for a
one-character separator). -/
def splitAllChar (sep : Char) : List Char → List (List Char)
  | [] => [[]]
  | c :: rest =>
    if c == sep then [] :: splitAllChar sep rest
    else
      match splitAllChar sep rest with
      | [] => [[c]]
      | h :: t => (c :: h) :: t

/-- Join segments with `sep` between consecutive segments (inverse of
`splitAllChar`). -/
def joinChar (sep : Char) : List (List Char) → List Char
  | [] => []
  | [p] => p
  | p :: q :: t => p ++ sep :: joinChar sep (q :: t)

/-- Modelled from the spec: the external `cleanUrl` collaborator (imported from
`./utils`, not part of the provided sources) "canonicalizes a URL" and is used
"to strip tracking/irrelevant query noise".  A query parameter is treated as
noise exactly when its key starts with `utm_`. -/
def isTrackingParam (p : List Char) : Bool :=
  leadsWith "utm_".data p

/-- Modelled from the spec: the query half of `cleanUrl` — drop noise
parameters from the query; if none survive, return the bare base. -/
def cleanUrlQuery (base query : List Char) : List Char :=
  match (splitAllChar '&' query).filter (fun p => !(isTrackingParam p)) with
  | [] => base
  | p :: ps => base ++ '?' :: joinChar '&' (p :: ps)

/-- Modelled from the spec: `cleanUrl` on character lists.  The URL is split at
the first `?` into a base and a query; noise parameters are dropped from the
query; if no parameters survive, the bare base is returned. -/
def cleanUrlChars (s : List Char) : List Char :=
  match splitAllChar '?' s with
  | [] => s
  | [base] => base
  | base :: q :: rest => cleanUrlQuery base (joinChar '?' (q :: rest))

/-- Modelled from the spec: `cleanUrl(url: string) -> string` canonicalizes a
URL (idempotent; see `cleanUrl_idem`). -/
def cleanUrl (url : String) : String :=
  String.mk (cleanUrlChars url.data)

/-- The pattern matched by the `getUniqId` regex before the capture group:
the literal characters of fnView, open paren, and the single quote. -/
def fnViewPat : List Char := "fnView(".data ++ [sq]

/-- Characters up to (excluding) the next occurrence of `stop`; `none` when
`stop` never occurs (the regex then fails at this start position). -/
def takeTo (stop : Char) : List Char → Option (List Char)
  | [] => none
  | c :: rest => if c == stop then some [] else (takeTo stop rest).map (fun t => c :: t)

/-- Leftmost match of the regex from `getUniqId`, which in the source reads
fnView backslash-paren-quote capture-of-non-quotes quote: try each start
position left to right; at a position where the literal pattern matches,
capture the characters up to the closing quote. -/
def fnViewScan : List Char → Option (List Char)
  | [] => none
  | c :: rest =>
    match (if leadsWith fnViewPat (c :: rest) then takeTo sq ((c :: rest).drop fnViewPat.length) else none) with
    | some cap => some cap
    | none => fnViewScan rest

/-- String-level identifier extraction: the capture of the first regex match,
or the empty string when the pattern never matches. -/
def getUniqIdStr (onclick : String) : String :=
  match fnViewScan onclick.data with
  | some cap => String.mk cap
  | none => ""

/-- The literal characters of `nttSeq`. -/
def nttPat : List Char := "nttSeq".data

/-- Leading run of decimal digits. -/
def digitsOf (s : List Char) : List Char :=
  s.takeWhile (fun c => c.isDigit)

/-- Match of the `extractNttSeq` regex at the head of `s`: the literal
`nttSeq`, one of `=` or `:`, an optional single or double quote, then a
non-empty run of digits (the capture). -/
def nttMatchAt (s : List Char) : Option (List Char) :=
  if leadsWith nttPat s then
    match s.drop nttPat.length with
    | [] => none
    | c :: rest =>
      if c == '=' || c == ':' then
        let rest2 := match rest with
          | [] => ([] : List Char)
          | q :: r2 => if q == sq || q == dq then r2 else q :: r2
        match digitsOf rest2 with
        | [] => none
        | d :: ds => some (d :: ds)
      else none
  else none

/-- Leftmost match of the `extractNttSeq` regex: try each start position left
to right. -/
def nttScan : List Char → Option (List Char)
  | [] => none
  | c :: rest =>
    match nttMatchAt (c :: rest) with
    | some ds => some ds
    | none => nttScan rest

/-- `extractNttSeq` from `yngogo.parser.ts`: first capture of the regex over
the raw HTML text, or the empty string when there is no match. -/
def extractNttSeq (html : String) : String :=
  match nttScan html.data with
  | some ds => String.mk ds
  | none => ""

/-- An `a` element as selected by cheerio: its `onclick` attribute (absent
attributes read as `undefined`, hence `Option`) and its text content. -/
structure Anchor where
  onclick : Option String
  text : String
  deriving DecidableEq

/-- A `td` cell: its text content and the first descendant `a` element, if
any (an empty `find("a")` selection is `none`). -/
structure Cell where
  text : String
  anchor : Option Anchor
  deriving DecidableEq

/-- A `tr` row as selected by the `.basic-table01 tr` selector, with its `td`
cells. -/
structure Row where
  cells : List Cell
  deriving DecidableEq

/-- `columns.eq(i)`: the `i`-th cell, or the empty selection. -/
def cellAt (cells : List Cell) (i : Nat) : Option Cell :=
  cells.get? i

/-- `.text()` on a possibly-empty cell selection: the empty selection reads
as `""`. -/
def selText : Option Cell → String
  | some c => c.text
  | none => ""

/-- `.find("a")` on a possibly-empty cell selection. -/
def selAnchor : Option Cell → Option Anchor
  | some c => c.anchor
  | none => none

/-- `.text()` on a possibly-empty anchor selection. -/
def anchorText : Option Anchor → String
  | some a => a.text
  | none => ""

/-- Whitespace as the JavaScript trim method strips it (the common
cases: space, tab, newline, carriage return). -/
def isJsSpace (c : Char) : Bool :=
  c == ' ' || c == '\t' || c == '\n' || c == '\r'

/-- The JavaScript trim method: drop leading and trailing whitespace. -/
def jsTrim (s : String) : String :=
  String.mk ((((s.data.dropWhile isJsSpace).reverse).dropWhile isJsSpace).reverse)

/-- `getUniqId` from `yngogo.parser.ts`: read the `onclick` attribute
(defaulting to `""` when the selection is empty or the attribute absent) and
extract the first quoted argument of the `fnView` call. -/
def getUniqId (element : Option Anchor) : String :=
  getUniqIdStr ((element.bind Anchor.onclick).getD "")

/-- Which semantic timestamp a captured date represents (from the core
core library `DateType`). -/
inductive DateType where
  | REGISTERED
  | MODIFIED
  deriving DecidableEq

/-- A produced list item (`ParsedTargetListItem` from the core library); dates
are embedded as integers. -/
structure ParsedTargetListItem where
  uniqId : String
  title : String
  date : Int
  detailUrl : String
  dateType : DateType
  deriving DecidableEq

/-- Base URL constant of the yngogo parser. -/
def BASE_URL : String := "http://www.yngogo.or.kr"

/-- The detail-URL template string built for each row, before
canonicalization. -/
def yngogoDetailUrl (menuSeq uniqId bbsSeq sitecntntsSeq : String) : String :=
  BASE_URL ++ "/subList/" ++ menuSeq ++ "?pmode=detail&nttSeq=" ++ uniqId ++
    "&bbsSeq=" ++ bbsSeq ++ "&sitecntntsSeq=" ++ sitecntntsSeq

/-- The item pushed for one data row of the listing fragment: title anchor
from the second cell, identifier from its `onclick`, date (via the external
`getDate`, passed in) from the fourth cell, canonicalized detail URL. -/
def rowItem (getDate : String → Int) (menuSeq bbsSeq sitecntntsSeq : String)
    (row : Row) : ParsedTargetListItem :=
  let titleElement := selAnchor (cellAt row.cells 1)
  let uniqId := getUniqId titleElement
  let detailUrl := yngogoDetailUrl menuSeq uniqId bbsSeq sitecntntsSeq
  { uniqId := uniqId
    title := jsTrim (anchorText titleElement)
    date := getDate (jsTrim (selText (cellAt row.cells 3)))
    detailUrl := cleanUrl detailUrl
    dateType := DateType.REGISTERED }

/-- The row loop of `parseYngogoList` (lines 81-104): iterate the selected
rows of the fragment returned by the internal list API, skip rows with zero
`td` columns, and push one item per remaining row. -/
def parseYngogoList (getDate : String → Int) (rows : List Row)
    (menuSeq bbsSeq sitecntntsSeq : String) : List ParsedTargetListItem :=
  rows.foldl
    (fun posts row =>
      if row.cells.length == 0 then posts
      else posts ++ [rowItem getDate menuSeq bbsSeq sitecntntsSeq row])
    []

/-- A cache entry of `htmlCache`: the fetched page and the store time. -/
structure CacheEntry where
  html : String
  timestamp : Nat
  deriving DecidableEq

/-- The `htmlCache` map, as an association list with at most one entry per
URL key. -/
abbrev Cache := List (String × CacheEntry)

/-- `htmlCache.get(url)`. -/
def cacheGet (cache : Cache) (url : String) : Option CacheEntry :=
  (cache.find? (fun p => p.1 == url)).map (fun p => p.2)

/-- `htmlCache.set(url, e)`: replace the entry in place, or append a new one. -/
def cacheSet : Cache → String → CacheEntry → Cache
  | [], url, e => [(url, e)]
  | p :: rest, url, e =>
    if p.1 == url then (url, e) :: rest else p :: cacheSet rest url e

/-- `CACHE_TTL = 5 * 60 * 1000` milliseconds. -/
def CACHE_TTL : Int := 5 * 60 * 1000

/-- The fixed pool of browser identities (`USER_AGENTS`). -/
def USER_AGENTS : List String := [
  "Mozilla/5.0 (Windows NT 10.0; Win64; x64) AppleWebKit/537.36 (KHTML, like Gecko) Chrome/125.0.0.0 Safari/537.36",
  "Mozilla/5.0 (Windows NT 10.0; Win64; x64) AppleWebKit/537.36 (KHTML, like Gecko) Chrome/124.0.0.0 Safari/537.36 Edg/124.0.0.0",
  "Mozilla/5.0 (Windows NT 10.0; Win64; x64; rv:126.0) Gecko/20100101 Firefox/126.0",
  "Mozilla/5.0 (Macintosh; Intel Mac OS X 10_15_7) AppleWebKit/537.36 (KHTML, like Gecko) Chrome/125.0.0.0 Safari/537.36",
  "Mozilla/5.0 (Macintosh; Intel Mac OS X 10_15_7) AppleWebKit/605.1.15 (KHTML, like Gecko) Version/17.5 Safari/605.1.15",
  "Mozilla/5.0 (Macintosh; Intel Mac OS X 10.15; rv:126.0) Gecko/20100101 Firefox/126.0",
  "Mozilla/5.0 (X11; Linux x86_64) AppleWebKit/537.36 (KHTML, like Gecko) Chrome/125.0.0.0 Safari/537.36",
  "Mozilla/5.0 (X11; Ubuntu; Linux x86_64; rv:126.0) Gecko/20100101 Firefox/126.0",
  "Mozilla/5.0 (Windows NT 10.0; Win64; x64) AppleWebKit/537.36 (KHTML, like Gecko) Chrome/123.0.0.0 Safari/537.36",
  "Mozilla/5.0 (Macintosh; Intel Mac OS X 10_15_7) AppleWebKit/537.36 (KHTML, like Gecko) Chrome/124.0.0.0 Safari/537.36"]

/-- `getRandomUserAgent`: `USER_AGENTS[Math.floor(Math.random() * length)]`,
with the random draw embedded as the index parameter `r` reduced modulo the
pool size. -/
def getRandomUserAgent (r : Nat) : String :=
  USER_AGENTS.getD (r % USER_AGENTS.length) ""

/-- The `Accept` header constant sent by `fetchHtml`. -/
def ACCEPT_HEADER : String :=
  "text/html,application/xhtml+xml,application/xml;q=0.9,image/avif,image/webp,image/apng,*/*;q=0.8"

/-- The `Accept-Language` header constant sent by `fetchHtml`. -/
def ACCEPT_LANGUAGE_HEADER : String :=
  "ko-KR,ko;q=0.9,en-US;q=0.8,en;q=0.7"

/-- An outbound request as `fetchHtml` builds it: the URL and the three
headers. -/
structure HttpRequest where
  url : String
  userAgent : String
  accept : String
  acceptLanguage : String
  deriving DecidableEq

/-- A network response: `ok` is true exactly for 2xx statuses (the code reads
only `ok`, `status`, `statusText` and the body text). -/
structure HttpResponse where
  ok : Bool
  status : Nat
  statusText : String
  body : String
  deriving DecidableEq

/-- The failure a `fetchHtml` call can throw: the HTTP error built from a
non-2xx response, or a rejection of the underlying network call. -/
inductive FetchError where
  | http (status : Nat) (statusText : String)
  | network (url : String)
  deriving DecidableEq

/-- Return value or thrown error of one `fetchHtml` call. -/
inductive FetchResult where
  | ok (html : String)
  | thrown (e : FetchError)
  deriving DecidableEq

/-- Everything one `fetchHtml` call produces: its result, the cache state it
leaves behind, whether it hit the network, and the request it sent (if any). -/
structure FetchOutcome where
  result : FetchResult
  cache : Cache
  networkCalled : Bool
  request : Option HttpRequest
  deriving DecidableEq

/-- The network environment: what one outbound request returns; `none` embeds
a rejected `fetch` (network failure). -/
def Net : Type := HttpRequest → Option HttpResponse

/-- The request `fetchHtml` sends for `url`, with the identity drawn for
random index `r`. -/
def mkRequest (r : Nat) (url : String) : HttpRequest :=
  { url := url
    userAgent := getRandomUserAgent r
    accept := ACCEPT_HEADER
    acceptLanguage := ACCEPT_LANGUAGE_HEADER }

/-- The network branch of `fetchHtml` (lines 57-72): send the request; a
non-ok response throws `HTTP status: statusText`; otherwise read the body,
store it in the cache with the current time, and return it. -/
def fetchNetwork (net : Net) (r now : Nat) (cache : Cache) (url : String) :
    FetchOutcome :=
  let req := mkRequest r url
  match net req with
  | none =>
    { result := .thrown (.network url), cache := cache,
      networkCalled := true, request := some req }
  | some response =>
    if !response.ok then
      { result := .thrown (.http response.status response.statusText),
        cache := cache, networkCalled := true, request := some req }
    else
      { result := .ok response.body,
        cache := cacheSet cache url { html := response.body, timestamp := now },
        networkCalled := true, request := some req }

/-- `fetchHtml(url, useCache)` (lines 46-73): with `useCache`, a stored entry
younger than `CACHE_TTL` is returned with no network activity; otherwise the
network branch runs.  `Date.now()` is embedded as the parameter `now`. -/
def fetchHtml (net : Net) (r now : Nat) (cache : Cache) (url : String)
    (useCache : Bool) : FetchOutcome :=
  if useCache then
    match cacheGet cache url with
    | some cached =>
      if (now : Int) - (cached.timestamp : Int) < CACHE_TTL then
        { result := .ok cached.html, cache := cache,
          networkCalled := false, request := none }
      else fetchNetwork net r now cache url
    | none => fetchNetwork net r now cache url
  else fetchNetwork net r now cache url

/-- A crawling target as the debug server reads it. -/
structure TargetDef where
  id : String
  name : String
  url : String
  deriving DecidableEq

/-- A crawling target group (`crawlingTargetGroups` element). -/
structure TargetGroup where
  id : String
  name : String
  targets : List TargetDef
  deriving DecidableEq

/-- Where a route handler ends up before any network activity: a 404, a 400,
or the fetch-and-parse stage with the URL it would fetch. -/
inductive RouteResult where
  | notFound (errMsg : String)
  | badRequest (errMsg : String)
  | fetchAndParse (url : String) (useCache : Bool)
  deriving DecidableEq

/-- Lookup-and-dispatch of the `/api/parse-list` handler (lines 90-115 of the
server): find the group, find the target within it, choose
`customUrl || target.url` (the empty string is falsy), then fetch with
`!skipCache`. -/
def parseListRoute (groups : List TargetGroup) (groupId targetId : String)
    (customUrl : Option String) (skipCache : Bool) : RouteResult :=
  match groups.find? (fun g => g.id == groupId) with
  | none => .notFound ("Group not found: " ++ groupId)
  | some group =>
    match group.targets.find? (fun t => t.id == targetId) with
    | none => .notFound ("Target not found: " ++ targetId)
    | some target =>
      let url := match customUrl with
        | some c => if c == "" then target.url else c
        | none => target.url
      .fetchAndParse url (!skipCache)

/-- Lookup-and-dispatch of the `/api/parse-detail` handler (lines 139-161):
find the group, find the target, require a non-falsy `detailUrl`, then fetch
with `!skipCache`. -/
def parseDetailRoute (groups : List TargetGroup) (groupId targetId : String)
    (detailUrl : Option String) (skipCache : Bool) : RouteResult :=
  match groups.find? (fun g => g.id == groupId) with
  | none => .notFound ("Group not found: " ++ groupId)
  | some group =>
    match group.targets.find? (fun t => t.id == targetId) with
    | none => .notFound ("Target not found: " ++ targetId)
    | some _ =>
      match detailUrl with
      | none => .badRequest "detailUrl is required"
      | some d =>
        if d == "" then .badRequest "detailUrl is required"
        else .fetchAndParse d (!skipCache)

/-! ### Lemmas about splitting and joining -/

theorem splitAllChar_ne_nil (sep : Char) (s : List Char) : splitAllChar sep s ≠ [] := by
  induction s with
  | nil => simp [splitAllChar]
  | cons c rest ih =>
    cases h : c == sep with
    | true => simp [splitAllChar, h]
    | false =>
      cases hs : splitAllChar sep rest with
      | nil => simp [splitAllChar, h, hs]
      | cons a t => simp [splitAllChar, h, hs]

theorem sep_not_mem_splitAllChar (sep : Char) (s : List Char) :
    ∀ p ∈ splitAllChar sep s, sep ∉ p := by
  induction s with
  | nil =>
    intro p hp
    simp [splitAllChar] at hp
    simp [hp]
  | cons c rest ih =>
    intro p hp
    cases h : c == sep with
    | true =>
      rw [splitAllChar, h] at hp
      simp only [if_pos rfl] at hp
      rcases List.mem_cons.mp hp with hp | hp
      · simp [hp]
      · exact ih p hp
    | false =>
      have hcs : c ≠ sep := by
        intro hc
        rw [hc] at h
        simp at h
      cases hs : splitAllChar sep rest with
      | nil => exact absurd hs (splitAllChar_ne_nil sep rest)
      | cons a t =>
        rw [splitAllChar, h] at hp
        simp only [Bool.false_eq_true, if_false, hs] at hp
        rcases List.mem_cons.mp hp with hp | hp
        · subst hp
          intro hmem
          rcases List.mem_cons.mp hmem with hmem | hmem
          · exact hcs hmem.symm
          · exact ih a (hs ▸ List.mem_cons_self a t) hmem
        · exact ih p (hs ▸ List.mem_cons_of_mem a hp)

theorem splitAllChar_of_not_mem (sep : Char) (s : List Char) (hs : sep ∉ s) :
    splitAllChar sep s = [s] := by
  induction s with
  | nil => rfl
  | cons c rest ih =>
    have hc : (c == sep) = false := by
      simp only [beq_eq_false_iff_ne, ne_eq]
      intro hc
      exact hs (hc ▸ List.mem_cons_self c rest)
    have hrest : sep ∉ rest := fun hm => hs (List.mem_cons_of_mem c hm)
    rw [splitAllChar, hc]
    simp only [Bool.false_eq_true, if_false, ih hrest]

theorem joinChar_cons_cons (sep c : Char) (h : List Char) (t : List (List Char)) :
    joinChar sep ((c :: h) :: t) = c :: joinChar sep (h :: t) := by
  cases t with
  | nil => rfl
  | cons q t2 => rfl

theorem joinChar_splitAllChar (sep : Char) (s : List Char) :
    joinChar sep (splitAllChar sep s) = s := by
  induction s with
  | nil => rfl
  | cons c rest ih =>
    cases h : c == sep with
    | true =>
      have hc : c = sep := by simpa using h
      cases hs : splitAllChar sep rest with
      | nil => exact absurd hs (splitAllChar_ne_nil sep rest)
      | cons a t =>
        rw [splitAllChar, h]
        simp only [if_true, hs]
        rw [hs] at ih
        have hj : joinChar sep ([] :: a :: t) = sep :: joinChar sep (a :: t) := rfl
        rw [hj, ih, hc]
    | false =>
      cases hs : splitAllChar sep rest with
      | nil => exact absurd hs (splitAllChar_ne_nil sep rest)
      | cons a t =>
        rw [splitAllChar, h]
        simp only [Bool.false_eq_true, if_false, hs]
        rw [joinChar_cons_cons]
        rw [hs] at ih
        rw [ih]

theorem splitAllChar_append (sep : Char) (base t : List Char) (hb : sep ∉ base) :
    splitAllChar sep (base ++ sep :: t) = base :: splitAllChar sep t := by
  induction base with
  | nil => simp [splitAllChar]
  | cons b bs ih =>
    have hbsep : (b == sep) = false := by
      simp only [beq_eq_false_iff_ne, ne_eq]
      intro hc
      exact hb (hc ▸ List.mem_cons_self b bs)
    have hbs : sep ∉ bs := fun hm => hb (List.mem_cons_of_mem b hm)
    rw [List.cons_append, splitAllChar, hbsep]
    simp only [Bool.false_eq_true, if_false, ih hbs]

theorem splitAllChar_joinChar (sep : Char) (ps : List (List Char)) (hne : ps ≠ [])
    (hall : ∀ p ∈ ps, sep ∉ p) : splitAllChar sep (joinChar sep ps) = ps := by
  induction ps with
  | nil => exact absurd rfl hne
  | cons p qs ih =>
    cases qs with
    | nil =>
      rw [joinChar]
      exact splitAllChar_of_not_mem sep p (hall p (List.mem_cons_self p []))
    | cons q t =>
      rw [joinChar, splitAllChar_append sep p _ (hall p (List.mem_cons_self p (q :: t)))]
      rw [ih (by simp) (fun x hx => hall x (List.mem_cons_of_mem p hx))]

/-! ### Idempotence and shape of `cleanUrl` -/

theorem cleanUrlQuery_shape (base query : List Char) :
    ∃ u, cleanUrlQuery base query = base ++ u := by
  rw [cleanUrlQuery]
  cases hp : (splitAllChar '&' query).filter (fun p => !(isTrackingParam p)) with
  | nil => exact ⟨[], by simp⟩
  | cons p ps => exact ⟨'?' :: joinChar '&' (p :: ps), rfl⟩

theorem cleanUrlChars_idem (s : List Char) :
    cleanUrlChars (cleanUrlChars s) = cleanUrlChars s := by
  cases hs : splitAllChar '?' s with
  | nil => exact absurd hs (splitAllChar_ne_nil '?' s)
  | cons base rest =>
    have hbase : '?' ∉ base :=
      sep_not_mem_splitAllChar '?' s base (hs ▸ List.mem_cons_self base rest)
    have hbase1 : cleanUrlChars base = base := by
      rw [cleanUrlChars, splitAllChar_of_not_mem '?' base hbase]
    cases rest with
    | nil =>
      have h1 : cleanUrlChars s = base := by rw [cleanUrlChars, hs]
      rw [h1, hbase1]
    | cons q rest2 =>
      have h1 : cleanUrlChars s = cleanUrlQuery base (joinChar '?' (q :: rest2)) := by
        rw [cleanUrlChars, hs]
      rw [h1, cleanUrlQuery]
      cases hp : (splitAllChar '&' (joinChar '?' (q :: rest2))).filter
          (fun p => !(isTrackingParam p)) with
      | nil => exact hbase1
      | cons p0 ps =>
        show cleanUrlChars (base ++ '?' :: joinChar '&' (p0 :: ps)) =
          base ++ '?' :: joinChar '&' (p0 :: ps)
        have hallamp : ∀ x ∈ p0 :: ps, '&' ∉ x := by
          intro x hx
          exact sep_not_mem_splitAllChar '&' (joinChar '?' (q :: rest2)) x
            (List.mem_of_mem_filter (hp ▸ hx))
        cases hJ : splitAllChar '?' (joinChar '&' (p0 :: ps)) with
        | nil => exact absurd hJ (splitAllChar_ne_nil _ _)
        | cons j0 jt =>
          have h2 : splitAllChar '?' (base ++ '?' :: joinChar '&' (p0 :: ps)) =
              base :: j0 :: jt := by
            rw [splitAllChar_append '?' base _ hbase, hJ]
          rw [cleanUrlChars, h2]
          show cleanUrlQuery base (joinChar '?' (j0 :: jt)) =
            base ++ '?' :: joinChar '&' (p0 :: ps)
          have hq2 : joinChar '?' (j0 :: jt) = joinChar '&' (p0 :: ps) := by
            rw [← hJ, joinChar_splitAllChar]
          rw [hq2, cleanUrlQuery]
          rw [splitAllChar_joinChar '&' (p0 :: ps) (by simp) hallamp]
          have hfix : (p0 :: ps).filter (fun p => !(isTrackingParam p)) = p0 :: ps := by
            apply List.filter_eq_self.mpr
            intro a ha
            rw [← hp] at ha
            simpa using List.of_mem_filter ha
          rw [hfix]

theorem cleanUrlChars_head (c : Char) (s : List Char) (hc : (c == '?') = false) :
    ∃ t, cleanUrlChars (c :: s) = c :: t := by
  cases hs : splitAllChar '?' s with
  | nil => exact absurd hs (splitAllChar_ne_nil '?' s)
  | cons h t =>
    have hsplit : splitAllChar '?' (c :: s) = (c :: h) :: t := by
      rw [splitAllChar, hc]
      simp only [Bool.false_eq_true, if_false, hs]
    cases t with
    | nil => exact ⟨h, by rw [cleanUrlChars, hsplit]⟩
    | cons q r =>
      rw [cleanUrlChars, hsplit]
      simp only
      rcases cleanUrlQuery_shape (c :: h) (joinChar '?' (q :: r)) with ⟨u, hu⟩
      exact ⟨h ++ u, by rw [hu]; rfl⟩

/-! ### Lemmas about the parser loop -/

theorem parseYngogoList_foldl (gd : String → Int) (m b s : String)
    (rows : List Row) (acc : List ParsedTargetListItem) :
    rows.foldl
      (fun posts row =>
        if row.cells.length == 0 then posts
        else posts ++ [rowItem gd m b s row]) acc
    = acc ++ (rows.filter (fun r => !(r.cells.length == 0))).map (rowItem gd m b s) := by
  induction rows generalizing acc with
  | nil => simp
  | cons r rs ih =>
    simp only [List.foldl_cons, List.filter_cons]
    by_cases h : r.cells = []
    · simp_all
    · simp_all [List.append_assoc]

theorem parseYngogoList_eq (gd : String → Int) (m b s : String) (rows : List Row) :
    parseYngogoList gd rows m b s =
      (rows.filter (fun r => !(r.cells.length == 0))).map (rowItem gd m b s) := by
  rw [parseYngogoList]
  simpa using parseYngogoList_foldl gd m b s rows []

/-! ### Lemmas about the regex scanners -/

theorem fnViewScan_of_not_contains (s : List Char)
    (h : containsSeq fnViewPat s = false) : fnViewScan s = none := by
  induction s with
  | nil => rfl
  | cons c rest ih =>
    rw [containsSeq] at h
    rcases Bool.or_eq_false_iff.mp h with ⟨h1, h2⟩
    rw [fnViewScan, h1]
    exact ih h2

theorem nttScan_of_not_contains (s : List Char)
    (h : containsSeq nttPat s = false) : nttScan s = none := by
  induction s with
  | nil => rfl
  | cons c rest ih =>
    rw [containsSeq] at h
    rcases Bool.or_eq_false_iff.mp h with ⟨h1, h2⟩
    have hm : nttMatchAt (c :: rest) = none := by rw [nttMatchAt, h1]; rfl
    rw [nttScan, hm]
    exact ih h2

theorem getUniqIdStr_of_not_contains (onclick : String)
    (h : containsSeq fnViewPat onclick.data = false) : getUniqIdStr onclick = "" := by
  rw [getUniqIdStr, fnViewScan_of_not_contains onclick.data h]

/-! ### Lemmas about the cache -/

theorem cacheGet_cacheSet_self (cache : Cache) (url : String) (e : CacheEntry) :
    cacheGet (cacheSet cache url e) url = some e := by
  induction cache with
  | nil => simp [cacheSet, cacheGet, List.find?]
  | cons p rest ih =>
    cases h : p.1 == url with
    | true => simp [cacheSet, cacheGet, h, List.find?]
    | false =>
      rw [cacheSet, h]
      simp only [Bool.false_eq_true, if_false]
      rw [cacheGet, List.find?]
      rw [h]
      exact ih

/-! ### Lemmas about the network branch -/

theorem getRandomUserAgent_mem (r : Nat) : getRandomUserAgent r ∈ USER_AGENTS := by
  rw [getRandomUserAgent]
  have h : r % USER_AGENTS.length < USER_AGENTS.length := Nat.mod_lt _ (by decide)
  rw [List.getD_eq_getElem?_getD, List.getElem?_eq_getElem h]
  simp only [Option.getD_some]
  exact List.getElem_mem h

theorem fetchNetwork_networkCalled (net : Net) (r now : Nat) (cache : Cache)
    (url : String) : (fetchNetwork net r now cache url).networkCalled = true := by
  rw [fetchNetwork]
  cases net (mkRequest r url) with
  | none => rfl
  | some resp => cases h : resp.ok with
    | true => simp [h]
    | false => simp [h]

theorem fetchNetwork_request (net : Net) (r now : Nat) (cache : Cache)
    (url : String) : (fetchNetwork net r now cache url).request = some (mkRequest r url) := by
  rw [fetchNetwork]
  cases net (mkRequest r url) with
  | none => rfl
  | some resp => cases h : resp.ok with
    | true => simp [h]
    | false => simp [h]

theorem fetchHtml_network (net : Net) (r now : Nat) (cache : Cache) (url : String)
    (u : Bool) (h : (fetchHtml net r now cache url u).networkCalled = true) :
    fetchHtml net r now cache url u = fetchNetwork net r now cache url := by
  cases u with
  | false => rfl
  | true =>
    cases hc : cacheGet cache url with
    | none => simp [fetchHtml, hc]
    | some e =>
      by_cases hf : (now : Int) - (e.timestamp : Int) < CACHE_TTL
      · simp [fetchHtml, hc, hf] at h
      · simp [fetchHtml, hc, hf]

/-! ### Corollaries about `cleanUrl` and the detail URL -/

theorem cleanUrl_idem (url : String) : cleanUrl (cleanUrl url) = cleanUrl url := by
  rw [cleanUrl, cleanUrl]
  rw [show (String.mk (cleanUrlChars url.data)).data = cleanUrlChars url.data from rfl]
  rw [cleanUrlChars_idem]

theorem yngogoDetailUrl_head (m u b s : String) :
    ∃ t, (yngogoDetailUrl m u b s).data = 'h' :: t := by
  have h2 : (yngogoDetailUrl m u b s).data =
      'h' :: ("ttp://www.yngogo.or.kr".data ++ ("/subList/".data ++ (m.data ++
        ("?pmode=detail&nttSeq=".data ++ (u.data ++ ("&bbsSeq=".data ++ (b.data ++
          ("&sitecntntsSeq=".data ++ s.data)))))))) := by
    rw [yngogoDetailUrl]
    rw [show BASE_URL = "h" ++ "ttp://www.yngogo.or.kr" from by decide]
    simp [String.data_append, List.append_assoc]
  exact ⟨_, h2⟩

theorem cleanUrl_yngogo_ne_empty (m u b s : String) :
    cleanUrl (yngogoDetailUrl m u b s) ≠ "" := by
  rcases yngogoDetailUrl_head m u b s with ⟨t, ht⟩
  rw [cleanUrl, ht]
  rcases cleanUrlChars_head 'h' t (by decide) with ⟨t2, ht2⟩
  rw [ht2]
  intro hcontra
  have hdata := congrArg String.data hcontra
  simp at hdata

/-! ### Test fixtures (concrete rows for witnesses and counterexamples) -/

/-- A plain text cell with no anchor. -/
def cellPlain (t : String) : Cell := { text := t, anchor := none }

/-- A cell whose anchor carries an inline click handler. -/
def cellClick (onclick t : String) : Cell :=
  { text := "", anchor := some { onclick := some onclick, text := t } }

/-- A data row of the shape the yngogo listing table produces: number column,
title anchor, writer column, date column. -/
def dataRow (onclick title date : String) : Row :=
  { cells := [cellPlain "", cellClick onclick title, cellPlain "", cellPlain date] }

/-! ### Claim theorems -/

/-- C3 (counterexample): `parseYngogoList` performs no deduplication, so a
fragment whose two data rows carry the same inline-handler identifier yields
a duplicated `uniqId`, falsifying the claim that the produced identifiers are
always pairwise distinct. -/
theorem parse_list_unique_ids_counterexample :
    ¬ ((parseYngogoList (fun _ => 0)
      [dataRow "fnView(\x2742\x27)" "A" "2024.01.01",
       dataRow "fnView(\x2742\x27)" "B" "2024.01.02"]
      "398" "82" "5").map ParsedTargetListItem.uniqId).Nodup := by
  decide

/-- C3 (amended): `parseYngogoList` emits exactly the identifiers extracted
from the kept rows, so whenever the identifiers extracted from the rows with
at least one data column are pairwise distinct, the produced `uniqId` values
are pairwise distinct. -/
theorem parse_list_unique_ids_amended :
    ∀ (gd : String → Int) (m b s : String) (rows : List Row),
    ((rows.filter (fun r => !(r.cells.length == 0))).map
      (fun r => getUniqId (selAnchor (cellAt r.cells 1)))).Nodup →
    ((parseYngogoList gd rows m b s).map ParsedTargetListItem.uniqId).Nodup := by
  intro gd m b s rows h
  rw [parseYngogoList_eq, List.map_map]
  have hfun : (ParsedTargetListItem.uniqId ∘ rowItem gd m b s) =
      fun r => getUniqId (selAnchor (cellAt r.cells 1)) := rfl
  rw [hfun]
  exact h

/-- Witness for C3 (amended) at a concrete two-row fragment with distinct
extracted identifiers. -/
theorem parse_list_unique_ids_witness :
    ((parseYngogoList (fun _ => 0)
      [dataRow "fnView(\x271\x27)" "A" "2024.01.01",
       dataRow "fnView(\x272\x27)" "B" "2024.01.02"]
      "398" "82" "5").map ParsedTargetListItem.uniqId).Nodup :=
  parse_list_unique_ids_amended (fun _ => 0) "398" "82" "5"
    [dataRow "fnView(\x271\x27)" "A" "2024.01.01",
     dataRow "fnView(\x272\x27)" "B" "2024.01.02"] (by decide)

/-- C4: identifier extraction applied to an element whose inline click handler
is the `fnView` call of the spec example returns its quoted first argument,
and extraction from an element whose handler text never contains the
fnView-call pattern returns the empty string. -/
theorem getUniqId_extraction_spec :
    getUniqId (some { onclick := some "fnView(\x271005200642\x27, \x27admin\x27, \x27\x27, \x27\x27,\x27\x27);", text := "t" }) = "1005200642" ∧
    ∀ element : Option Anchor,
      containsSeq fnViewPat ((element.bind Anchor.onclick).getD "").data = false →
      getUniqId element = "" := by
  constructor
  · decide
  · intro element h
    rw [getUniqId]
    exact getUniqIdStr_of_not_contains _ h

/-- Witness for C4 at a concrete handler with no matching call pattern. -/
theorem getUniqId_extraction_witness :
    getUniqId (some { onclick := some "goView(123)", text := "t" }) = "" :=
  getUniqId_extraction_spec.2
    (some { onclick := some "goView(123)", text := "t" }) (by decide)

/-- C5: `extractNttSeq` returns `"1005200644"` for inputs embedding the
parameter in each of the three quoting styles (unquoted, single-quoted,
double-quoted), and returns the empty string for text that never contains
the `nttSeq` key. -/
theorem extractNttSeq_spec :
    extractNttSeq "goView(); nttSeq=1005200644&bbsSeq=82" = "1005200644" ∧
    extractNttSeq "var nttSeq=\x271005200644\x27;" = "1005200644" ∧
    extractNttSeq "var nttSeq=\x221005200644\x22;" = "1005200644" ∧
    ∀ html : String, containsSeq nttPat html.data = false → extractNttSeq html = "" := by
  refine ⟨by decide, by decide, by decide, ?_⟩
  intro html h
  rw [extractNttSeq, nttScan_of_not_contains html.data h]

/-- Witness for C5 at a concrete non-matching input. -/
theorem extractNttSeq_witness : extractNttSeq "no sequence parameter here" = "" :=
  extractNttSeq_spec.2.2.2 "no sequence parameter here" (by decide)

/-- C6: `parseYngogoList` keeps exactly the rows with at least one `td`
column, mapping each to one item; in particular a fragment with one
header-only row and three data rows yields exactly three items. -/
theorem parse_list_skip_header_spec :
    (∀ (gd : String → Int) (m b s : String) (rows : List Row),
      parseYngogoList gd rows m b s =
        (rows.filter (fun r => !(r.cells.length == 0))).map (rowItem gd m b s)) ∧
    (parseYngogoList (fun _ => 0)
      [{ cells := [] },
       dataRow "fnView(\x271\x27)" "A" "2024.01.01",
       dataRow "fnView(\x272\x27)" "B" "2024.01.02",
       dataRow "fnView(\x273\x27)" "C" "2024.01.03"]
      "398" "82" "5").length = 3 := by
  constructor
  · exact fun gd m b s rows => parseYngogoList_eq gd m b s rows
  · decide

/-- C7: every item produced by `parseYngogoList` has a non-empty `detailUrl`
which is a fixed point of URL canonicalization. -/
theorem detail_url_canonical_spec :
    ∀ (gd : String → Int) (m b s : String) (rows : List Row)
      (item : ParsedTargetListItem),
    item ∈ parseYngogoList gd rows m b s →
    item.detailUrl ≠ "" ∧ cleanUrl item.detailUrl = item.detailUrl := by
  intro gd m b s rows item hmem
  rw [parseYngogoList_eq] at hmem
  rcases List.mem_map.mp hmem with ⟨r, hr, hitem⟩
  subst hitem
  constructor
  · exact cleanUrl_yngogo_ne_empty m _ b s
  · exact cleanUrl_idem _

/-- Witness for C7 at a concrete one-row fragment. -/
theorem detail_url_canonical_witness :
    (rowItem (fun _ => 0) "398" "82" "5"
      (dataRow "fnView(\x2777\x27)" "T" "2024.01.01")).detailUrl ≠ "" ∧
    cleanUrl (rowItem (fun _ => 0) "398" "82" "5"
        (dataRow "fnView(\x2777\x27)" "T" "2024.01.01")).detailUrl =
      (rowItem (fun _ => 0) "398" "82" "5"
        (dataRow "fnView(\x2777\x27)" "T" "2024.01.01")).detailUrl :=
  detail_url_canonical_spec (fun _ => 0) "398" "82" "5"
    [dataRow "fnView(\x2777\x27)" "T" "2024.01.01"]
    (rowItem (fun _ => 0) "398" "82" "5" (dataRow "fnView(\x2777\x27)" "T" "2024.01.01"))
    (by decide)

/-- C10: a data row whose inline handler yields no identifier match is still
emitted: its item appears in the output with `uniqId = ""` and a detail URL
built with an empty `nttSeq=` value; rows are dropped only for having zero
data columns. -/
theorem unmatched_id_rows_kept_spec :
    ∀ (gd : String → Int) (m b s : String) (rows : List Row) (row : Row),
    row ∈ rows → row.cells ≠ [] →
    getUniqId (selAnchor (cellAt row.cells 1)) = "" →
    rowItem gd m b s row ∈ parseYngogoList gd rows m b s ∧
    (rowItem gd m b s row).uniqId = "" ∧
    (rowItem gd m b s row).detailUrl = cleanUrl (yngogoDetailUrl m "" b s) := by
  intro gd m b s rows row hmem hne hid
  refine ⟨?_, hid, ?_⟩
  · rw [parseYngogoList_eq]
    exact List.mem_map_of_mem _ (List.mem_filter.mpr ⟨hmem, by simpa using hne⟩)
  · show cleanUrl (yngogoDetailUrl m (getUniqId (selAnchor (cellAt row.cells 1))) b s) =
      cleanUrl (yngogoDetailUrl m "" b s)
    rw [hid]

/-- Witness for C10 at a concrete row whose handler has no `fnView` call. -/
theorem unmatched_id_rows_kept_witness :
    rowItem (fun _ => 0) "398" "82" "5" (dataRow "goView(5)" "T" "2024.01.01") ∈
      parseYngogoList (fun _ => 0) [dataRow "goView(5)" "T" "2024.01.01"] "398" "82" "5" ∧
    (rowItem (fun _ => 0) "398" "82" "5" (dataRow "goView(5)" "T" "2024.01.01")).uniqId = "" ∧
    (rowItem (fun _ => 0) "398" "82" "5" (dataRow "goView(5)" "T" "2024.01.01")).detailUrl =
      cleanUrl (yngogoDetailUrl "398" "" "82" "5") :=
  unmatched_id_rows_kept_spec (fun _ => 0) "398" "82" "5"
    [dataRow "goView(5)" "T" "2024.01.01"] (dataRow "goView(5)" "T" "2024.01.01")
    (by decide) (by decide) (by decide)

/-- C1: with `useCache`, `fetchHtml` returns the stored content with no
network request exactly when an entry exists and is younger than the
5-minute TTL; otherwise it performs a network request; hence two
cache-enabled fetches of one URL within the TTL window, starting with no
entry for that URL and with no intervening clear, return identical content
and trigger exactly one network call. -/
theorem fetchHtml_cache_ttl_spec :
    (∀ (net : Net) (r now : Nat) (cache : Cache) (url : String) (e : CacheEntry),
      cacheGet cache url = some e → (now : Int) - (e.timestamp : Int) < CACHE_TTL →
      fetchHtml net r now cache url true =
        { result := .ok e.html, cache := cache, networkCalled := false, request := none }) ∧
    (∀ (net : Net) (r now : Nat) (cache : Cache) (url : String),
      (∀ e, cacheGet cache url = some e → CACHE_TTL ≤ (now : Int) - (e.timestamp : Int)) →
      (fetchHtml net r now cache url true).networkCalled = true) ∧
    (∀ (net : Net) (r r2 now1 now2 : Nat) (cache : Cache) (url : String)
      (resp : HttpResponse),
      cacheGet cache url = none → net (mkRequest r url) = some resp → resp.ok = true →
      (now2 : Int) - (now1 : Int) < CACHE_TTL →
      (fetchHtml net r now1 cache url true).networkCalled = true ∧
      (fetchHtml net r now1 cache url true).result = .ok resp.body ∧
      (fetchHtml net r2 now2 (fetchHtml net r now1 cache url true).cache url
        true).networkCalled = false ∧
      (fetchHtml net r2 now2 (fetchHtml net r now1 cache url true).cache url
        true).result = .ok resp.body) := by
  refine ⟨?_, ?_, ?_⟩
  · intro net r now cache url e hc hf
    simp [fetchHtml, hc, hf]
  · intro net r now cache url hstale
    cases hc : cacheGet cache url with
    | none => simp [fetchHtml, hc, fetchNetwork_networkCalled]
    | some e =>
      have hge := hstale e hc
      have hf : ¬ ((now : Int) - (e.timestamp : Int) < CACHE_TTL) := not_lt.mpr hge
      simp [fetchHtml, hc, hf, fetchNetwork_networkCalled]
  · intro net r r2 now1 now2 cache url resp hc hnet hok hfresh
    have h1 : fetchHtml net r now1 cache url true = fetchNetwork net r now1 cache url := by
      simp [fetchHtml, hc]
    have h2 : fetchNetwork net r now1 cache url =
        { result := .ok resp.body,
          cache := cacheSet cache url { html := resp.body, timestamp := now1 },
          networkCalled := true, request := some (mkRequest r url) } := by
      rw [fetchNetwork, hnet]
      simp [hok]
    rw [h1, h2]
    have hget := cacheGet_cacheSet_self cache url { html := resp.body, timestamp := now1 }
    refine ⟨rfl, rfl, ?_, ?_⟩
    · simp [fetchHtml, hget, hfresh]
    · simp [fetchHtml, hget, hfresh]

/-- Witness for C1 at a concrete cold-start double fetch. -/
theorem fetchHtml_cache_ttl_witness :
    (fetchHtml (fun _ => some { ok := true, status := 200, statusText := "OK", body := "hello" })
      0 0 [] "http://x" true).networkCalled = true ∧
    (fetchHtml (fun _ => some { ok := true, status := 200, statusText := "OK", body := "hello" })
      0 0 [] "http://x" true).result = .ok "hello" ∧
    (fetchHtml (fun _ => some { ok := true, status := 200, statusText := "OK", body := "hello" })
      1 1000
      (fetchHtml (fun _ => some { ok := true, status := 200, statusText := "OK", body := "hello" })
        0 0 [] "http://x" true).cache
      "http://x" true).networkCalled = false ∧
    (fetchHtml (fun _ => some { ok := true, status := 200, statusText := "OK", body := "hello" })
      1 1000
      (fetchHtml (fun _ => some { ok := true, status := 200, statusText := "OK", body := "hello" })
        0 0 [] "http://x" true).cache
      "http://x" true).result = .ok "hello" :=
  fetchHtml_cache_ttl_spec.2.2
    (fun _ => some { ok := true, status := 200, statusText := "OK", body := "hello" })
    0 1 0 1000 [] "http://x" { ok := true, status := 200, statusText := "OK", body := "hello" }
    rfl rfl rfl (by decide)

/-- C2: whenever `fetchHtml` performs a network request, the request carries
an identity from the pool plus the fixed Accept and Accept-Language headers;
a non-2xx response makes the call fail with the status and status text of
the response; a 2xx response is returned in full, and the cache entry for that URL is
written or replaced with that content and the current timestamp. -/
theorem fetchHtml_network_request_spec :
    ∀ (net : Net) (r now : Nat) (cache : Cache) (url : String) (useCache : Bool),
    (fetchHtml net r now cache url useCache).networkCalled = true →
    (fetchHtml net r now cache url useCache).request = some (mkRequest r url) ∧
    (mkRequest r url).userAgent ∈ USER_AGENTS ∧
    (mkRequest r url).accept = ACCEPT_HEADER ∧
    (mkRequest r url).acceptLanguage = ACCEPT_LANGUAGE_HEADER ∧
    (∀ resp : HttpResponse, net (mkRequest r url) = some resp → resp.ok = false →
      (fetchHtml net r now cache url useCache).result =
        .thrown (.http resp.status resp.statusText)) ∧
    (∀ resp : HttpResponse, net (mkRequest r url) = some resp → resp.ok = true →
      (fetchHtml net r now cache url useCache).result = .ok resp.body ∧
      cacheGet (fetchHtml net r now cache url useCache).cache url =
        some { html := resp.body, timestamp := now }) := by
  intro net r now cache url useCache h
  rw [fetchHtml_network net r now cache url useCache h]
  refine ⟨fetchNetwork_request net r now cache url, getRandomUserAgent_mem r, rfl, rfl, ?_, ?_⟩
  · intro resp hnet hok
    rw [fetchNetwork, hnet]
    simp [hok]
  · intro resp hnet hok
    rw [fetchNetwork, hnet]
    simp [hok, cacheGet_cacheSet_self]

/-- Witness for C2 at a concrete forced network fetch against a 404. -/
theorem fetchHtml_network_request_witness :
    (fetchHtml (fun _ => some { ok := false, status := 404, statusText := "Not Found", body := "" })
      3 5 [] "http://y" false).request = some (mkRequest 3 "http://y") ∧
    (fetchHtml (fun _ => some { ok := false, status := 404, statusText := "Not Found", body := "" })
      3 5 [] "http://y" false).result = .thrown (.http 404 "Not Found") :=
  ⟨(fetchHtml_network_request_spec
      (fun _ => some { ok := false, status := 404, statusText := "Not Found", body := "" })
      3 5 [] "http://y" false (by decide)).1,
   (fetchHtml_network_request_spec
      (fun _ => some { ok := false, status := 404, statusText := "Not Found", body := "" })
      3 5 [] "http://y" false (by decide)).2.2.2.2.1
     { ok := false, status := 404, statusText := "Not Found", body := "" } rfl rfl⟩

/-- C9: a failed fetch (network rejection or non-2xx response) leaves the
cache map completely unchanged, including any pre-existing entry for the
requested URL itself. -/
theorem fetchHtml_failure_preserves_cache :
    ∀ (net : Net) (r now : Nat) (cache : Cache) (url : String) (useCache : Bool)
      (e : FetchError),
    (fetchHtml net r now cache url useCache).result = .thrown e →
    (fetchHtml net r now cache url useCache).cache = cache ∧
    cacheGet (fetchHtml net r now cache url useCache).cache url = cacheGet cache url := by
  intro net r now cache url useCache e h
  have hnetcache : (fetchNetwork net r now cache url).result = .thrown e →
      (fetchNetwork net r now cache url).cache = cache := by
    intro hres
    rw [fetchNetwork] at hres ⊢
    cases hn : net (mkRequest r url) with
    | none => rfl
    | some resp =>
      cases ho : resp.ok with
      | false => simp [ho]
      | true =>
        rw [hn] at hres
        simp [ho] at hres
  have hcase : fetchHtml net r now cache url useCache = fetchNetwork net r now cache url ∨
      (fetchHtml net r now cache url useCache).cache = cache := by
    cases useCache with
    | false => exact Or.inl rfl
    | true =>
      cases hc : cacheGet cache url with
      | none => exact Or.inl (by simp [fetchHtml, hc])
      | some en =>
        by_cases hf : (now : Int) - (en.timestamp : Int) < CACHE_TTL
        · exact Or.inr (by simp [fetchHtml, hc, hf])
        · exact Or.inl (by simp [fetchHtml, hc, hf])

  rcases hcase with hcase | hcase
  · rw [hcase] at h ⊢
    exact ⟨hnetcache h, by rw [hnetcache h]⟩
  · exact ⟨hcase, by rw [hcase]⟩

/-- Witness for C9: a network rejection with a pre-existing stale entry for
the same URL. -/
theorem fetchHtml_failure_preserves_cache_witness :
    (fetchHtml (fun _ => none) 0 100000000 [("u", { html := "old", timestamp := 0 })]
      "u" true).cache = [("u", { html := "old", timestamp := 0 })] ∧
    cacheGet (fetchHtml (fun _ => none) 0 100000000 [("u", { html := "old", timestamp := 0 })]
      "u" true).cache "u" =
      cacheGet [("u", { html := "old", timestamp := 0 })] "u" :=
  fetchHtml_failure_preserves_cache (fun _ => none) 0 100000000
    [("u", { html := "old", timestamp := 0 })] "u" true (.network "u") (by decide)

/-- C8: a request naming a group that exists and a target that does not exist
within that group fails with a not-found error whose message references the
target identifier, and never reaches the fetch-and-parse stage, on both the
parse-list and parse-detail routes. -/
theorem route_target_not_found_spec :
    ∀ (groups : List TargetGroup) (groupId targetId : String) (group : TargetGroup)
      (customUrl detailUrl : Option String) (skipCache : Bool),
    groups.find? (fun g => g.id == groupId) = some group →
    group.targets.find? (fun t => t.id == targetId) = none →
    parseListRoute groups groupId targetId customUrl skipCache =
      .notFound ("Target not found: " ++ targetId) ∧
    parseDetailRoute groups groupId targetId detailUrl skipCache =
      .notFound ("Target not found: " ++ targetId) ∧
    (∀ u bu, parseListRoute groups groupId targetId customUrl skipCache ≠
      .fetchAndParse u bu) ∧
    (∀ u bu, parseDetailRoute groups groupId targetId detailUrl skipCache ≠
      .fetchAndParse u bu) := by
  intro groups gid tid g cu du sk hg ht
  have h1 : parseListRoute groups gid tid cu sk =
      .notFound ("Target not found: " ++ tid) := by
    simp only [parseListRoute, hg, ht]
  have h2 : parseDetailRoute groups gid tid du sk =
      .notFound ("Target not found: " ++ tid) := by
    simp only [parseDetailRoute, hg, ht]
  refine ⟨h1, h2, ?_, ?_⟩
  · intro u bu hcontra
    rw [h1] at hcontra
    exact RouteResult.noConfusion hcontra
  · intro u bu hcontra
    rw [h2] at hcontra
    exact RouteResult.noConfusion hcontra

/-- Witness for C8 at a concrete one-group registry and an unknown target id. -/
theorem route_target_not_found_witness :
    parseListRoute [{ id := "g1", name := "Group", targets := [{ id := "t1", name := "T", url := "http://t" }] }]
      "g1" "zzz" none false = .notFound ("Target not found: " ++ "zzz") ∧
    parseDetailRoute [{ id := "g1", name := "Group", targets := [{ id := "t1", name := "T", url := "http://t" }] }]
      "g1" "zzz" (some "http://d") false = .notFound ("Target not found: " ++ "zzz") :=
  ⟨(route_target_not_found_spec
      [{ id := "g1", name := "Group", targets := [{ id := "t1", name := "T", url := "http://t" }] }]
      "g1" "zzz" { id := "g1", name := "Group", targets := [{ id := "t1", name := "T", url := "http://t" }] }
      none (some "http://d") false (by decide) (by decide)).1,
   (route_target_not_found_spec
      [{ id := "g1", name := "Group", targets := [{ id := "t1", name := "T", url := "http://t" }] }]
      "g1" "zzz" { id := "g1", name := "Group", targets := [{ id := "t1", name := "T", url := "http://t" }] }
      none (some "http://d") false (by decide) (by decide)).2.1⟩

end Radar
